import Mathlib

/-!
Verification of the batch-recall plugin (`main.py`): a shallow embedding of
the recall scheduling and batch-recall selection engine, with theorems
settling the specification's claims against the code.
-/

namespace BatchRecallPlugin

/-! ## Data model

A history entry as returned by `get_group_msg_history`.  The code reads
`msg.get("message_id")` (possibly absent, and `0` counts as falsy),
`str(msg.get("sender", {}).get("user_id", ""))` (already stringified here),
and `item.get("time", 0)` (absent timestamp defaults to 0). -/
structure HistoryEntry where
  message_id : Option Nat
  sender_id : String
  time : Option Nat
deriving DecidableEq, Repr

/-- The sort key used at `filtered_messages.sort(key=lambda item: item.get("time", 0))`. -/
def sortKey (e : HistoryEntry) : Nat := e.time.getD 0

/-- Decidable comparison for the stable descending sort: `a` may come before `b`
when `b`'s timestamp is at most `a`'s.  Python's `list.sort(reverse=True)` is a
stable descending sort, which is exactly `List.insertionSort` with this relation. -/
def timeGe (a b : HistoryEntry) : Prop := sortKey b ≤ sortKey a

instance : DecidableRel timeGe := fun x y => Nat.decLe (sortKey y) (sortKey x)

/-- The in-place sort
`filtered_messages.sort(key=lambda item: item.get("time", 0), reverse=True)`:
a stable sort, most recent first, ties keep original order. -/
def sortDesc (l : List HistoryEntry) : List HistoryEntry :=
  l.insertionSort timeGe

/-- The sender filter of `batch_recall_command` (lines 241-248): when a target
is provided keep entries whose stringified sender id equals it, else keep all. -/
def filterTarget (history : List HistoryEntry) (target_qq : Option String) :
    List HistoryEntry :=
  match target_qq with
  | some t => history.filter (fun m => m.sender_id = t)
  | none => history

/-- The selection performed by `batch_recall_command` (lines 224-258):
clamp `count` to `max_count` (`if count > max_count: count = max_count`),
filter by the optional target sender, sort by timestamp descending in place,
and take the first `count` entries (`filtered_messages[:count]`). -/
def batch_select (history : List HistoryEntry) (target_qq : Option String)
    (count max_count : Nat) : List HistoryEntry :=
  (sortDesc (filterTarget history target_qq)).take
    (if count > max_count then max_count else count)

/-- The selection as the specification words it (§4.2 `select`): clamp the
requested count to at most `max_count`, filter by the optional sender, stable
sort by timestamp descending, return the first clamped-count entries. -/
def select_spec (history : List HistoryEntry) (target_sender : Option String)
    (requested_count max_count : Nat) : List HistoryEntry :=
  ((match target_sender with
    | some s => history.filter (fun e : HistoryEntry => e.sender_id = s)
    | none => history).insertionSort timeGe).take (min requested_count max_count)

/-! ## Recall scheduler: registry transition system

`intercept_and_recall` (lines 124-126) creates the delayed task, attaches
`_remove_task` as done-callback and adds the task to `self.recall_tasks`, all
in one synchronous stretch of the event loop (no `await` between them), so
creation and registration form one atomic step.  `_remove_task` (lines 30-32)
discards the task from the set when the task reaches any terminal state. -/

/-- Terminal outcome of a delayed recall task: the delete succeeded, failed
benignly (retcode 1200), failed with an error, or the task was cancelled.
`add_done_callback` fires `_remove_task` in every one of these cases. -/
inductive Outcome
  | success
  | benign
  | error
  | cancelled
deriving DecidableEq, Repr

/-- Scheduler state: which task handles have been created, which have reached
a terminal state, and the contents of `self.recall_tasks`. -/
structure SchedState where
  created : Finset ℕ
  completed : Finset ℕ
  registry : Finset ℕ
deriving DecidableEq

/-- Initial state: `self.recall_tasks = set()` in `__init__`, no tasks yet. -/
def SchedState.init : SchedState := ⟨∅, ∅, ∅⟩

/-- One event-loop step of the scheduler.
`schedule` is lines 124-126 of `intercept_and_recall`: a fresh task is created
and synchronously registered (no suspension point separates
`asyncio.create_task` from `self.recall_tasks.add`).
`complete` is a task reaching any terminal outcome, whereupon its
`_remove_task` done-callback discards it from the registry; only a created,
not-yet-completed task can complete. -/
inductive SchedStep : SchedState → SchedState → Prop
  | schedule (s : SchedState) (t : ℕ) (ht : t ∉ s.created) :
      SchedStep s ⟨insert t s.created, s.completed, insert t s.registry⟩
  | complete (s : SchedState) (t : ℕ) (o : Outcome) (ht : t ∈ s.created)
      (hc : t ∉ s.completed) :
      SchedStep s ⟨s.created, insert t s.completed, s.registry.erase t⟩

/-- A scheduler state reachable from the initial state by event-loop steps. -/
def Reachable (s : SchedState) : Prop :=
  Relation.ReflTransGen SchedStep SchedState.init s

/-! ## `intercept_and_recall`: extracting the message id after the send -/

/-- The raw result of `send_group_msg` / `send_private_msg`: a dict possibly
carrying a `message_id`, or something that is not a dict at all. -/
inductive SendResult
  | dict (message_id : Option ℕ)
  | nondict
deriving DecidableEq, Repr

/-- Lines 115-117: `message_id = None`, then `send_result.get("message_id")`
only when the result is a dict. -/
def extract_message_id : SendResult → Option ℕ
  | .dict mid => mid
  | .nondict => none

/-- Lines 119-126: `if not message_id: log error; return` — a missing or zero
(falsy) id aborts; otherwise the recall task is created and registered.
Returns the new registry and whether a task was created. -/
def schedule_after_send (send_result : SendResult) (registry : Finset ℕ)
    (new_task : ℕ) : Finset ℕ × Bool :=
  match extract_message_id send_result with
  | none => (registry, false)
  | some mid => if mid = 0 then (registry, false) else (insert new_task registry, true)

/-! ## `_recall_msg`: delayed deletion and its error handling -/

/-- What the awaited `client.delete_msg` call does: succeed, raise
`ActionFailed` with an optional `retcode` attribute, or raise some other
exception. -/
inductive DeleteOutcome
  | ok
  | actionFailed (retcode : Option ℤ)
  | otherError
deriving DecidableEq, Repr

/-- How `_recall_msg` ends, as observable from its logging: `skipped` (falsy
id, no delete attempted), `deleted` (success, info log), `benignInfo`
(retcode 1200: info log and return), `errorLogged` (error log).  The function
is total: no exception escapes the task body (lines 40-52 catch
`ActionFailed` and `Exception`). -/
inductive RecallLog
  | skipped
  | deleted
  | benignInfo
  | errorLogged
deriving DecidableEq, Repr

/-- Lines 39-52 of `_recall_msg`, after the sleep: guard
`if message_id and message_id != 0`, attempt the delete, treat
`ActionFailed` with `retcode == 1200` as benign (info log, return), log every
other failure as an error. -/
def recall_msg (message_id : ℕ) (delete_result : DeleteOutcome) : RecallLog :=
  if message_id ≠ 0 then
    match delete_result with
    | .ok => .deleted
    | .actionFailed rc => if rc = some 1200 then .benignInfo else .errorLogged
    | .otherError => .errorLogged
  else .skipped

/-! ## `terminate`: draining the scheduler -/

/-- A task handle as seen by `terminate`: its identifier and whether
`task.done()` already holds. -/
structure RTask where
  id : ℕ
  done : Bool
deriving DecidableEq, Repr

/-- The plugin state `terminate` touches: the `recall_tasks` registry. -/
structure Plugin where
  recall_tasks : List RTask
deriving DecidableEq, Repr

/-- One event observed while draining: a not-yet-done task is cancelled, a
done task just completes when gathered. -/
inductive DrainEvent
  | cancelledEv (id : ℕ)
  | completedEv (id : ℕ)
deriving DecidableEq, Repr

/-- Lines 173-180: cancel every task not yet done, gather them all with
`return_exceptions=True` (cancellation errors are collected, not raised),
then `self.recall_tasks.clear()`.  Returns the final state and the
per-task drain events. -/
def terminate (p : Plugin) : Plugin × List DrainEvent :=
  (⟨[]⟩, p.recall_tasks.map fun t =>
    if t.done then DrainEvent.completedEv t.id else DrainEvent.cancelledEv t.id)

/-! ## Batch deletion loop of `batch_recall_command` (lines 260-274) -/

/-- The lookup `msg.get("message_id")` followed by the falsy test
`if not message_id: continue`: `none` when the field is absent or zero. -/
def truthy_id (mid : Option ℕ) : Option ℕ :=
  match mid with
  | none => none
  | some m => if m = 0 then none else some m

/-- The deletion loop: per entry, skip falsy ids, otherwise call
`event.bot.delete_msg`; `success += 1` on success, a failure is logged and
the loop continues.  `delete_ok` says whether the delete call for a given id
succeeds.  Returns the success tally and the ids actually attempted, in
order. -/
def batch_delete : List HistoryEntry → (ℕ → Bool) → ℕ × List ℕ
  | [], _ => (0, [])
  | m :: rest, delete_ok =>
    match truthy_id m.message_id with
    | none => batch_delete rest delete_ok
    | some mid =>
      (if delete_ok mid then (batch_delete rest delete_ok).1 + 1
        else (batch_delete rest delete_ok).1,
        mid :: (batch_delete rest delete_ok).2)

/-! ## Command-text parsing of `batch_recall_command` (lines 198-226) -/

/-- A message segment of the incoming command: an `At` mention (with its
stringified qq), a `Plain` text segment, or any other component. -/
inductive Seg
  | atSeg (qq : String)
  | plainSeg (text : String)
  | otherSeg
deriving DecidableEq, Repr

/-- Lines 199-203: the first `At` segment whose qq is not `"all"` fixes the
target; the loop breaks there. -/
def find_target_qq : List Seg → Option String
  | [] => none
  | .atSeg q :: rest => if q = "all" then find_target_qq rest else some q
  | .plainSeg _ :: rest => find_target_qq rest
  | .otherSeg :: rest => find_target_qq rest

/-- Python `str.strip()`: drop whitespace from both ends. -/
def trimChars (cs : List Char) : List Char :=
  ((cs.dropWhile Char.isWhitespace).reverse.dropWhile Char.isWhitespace).reverse

/-- Lines 205-209: concatenate the `Plain` segments and strip whitespace. -/
def full_text_of (segs : List Seg) : List Char :=
  trimChars (segs.filterMap fun s =>
    match s with
    | .plainSeg t => some t.data
    | _ => none).flatten

/-- Does `pat` occur at the head of `cs`? -/
def leadsWith : List Char → List Char → Bool
  | [], _ => true
  | _ :: _, [] => false
  | p :: ps, c :: cs => p == c && leadsWith ps cs

/-- The characters after the first occurrence of `pat` in the text, or `none`
when `pat` does not occur: Python's `pat in s` plus `s.split(pat, 1)[1]`. -/
def afterFirst (pat : List Char) : List Char → Option (List Char)
  | [] => if leadsWith pat [] then some [] else none
  | c :: cs =>
    if leadsWith pat (c :: cs) then some ((c :: cs).drop pat.length)
    else afterFirst pat cs

/-- Lines 211-213: `if "批量撤回" in tail: tail = tail.split("批量撤回", 1)[1]` —
everything after the first occurrence of the command word, else the whole
text. -/
def tail_after_cmd (cs : List Char) : List Char :=
  (afterFirst "批量撤回".data cs).getD cs

/-- The scan `re.findall(r"\d+", tail)`: the maximal runs of decimal digits, left to
right.  `cur` accumulates the current run in reverse. -/
def digitRunsAux : List Char → List Char → List (List Char)
  | [], cur => if cur = [] then [] else [cur.reverse]
  | c :: cs, cur =>
    if c.isDigit then digitRunsAux cs (c :: cur)
    else if cur = [] then digitRunsAux cs []
    else cur.reverse :: digitRunsAux cs []

/-- All maximal digit runs of a text. -/
def digitRuns (cs : List Char) : List (List Char) := digitRunsAux cs []

/-- Python `int(...)` on a digit run. -/
def natOfDigits (cs : List Char) : ℕ :=
  cs.foldl (fun n c => n * 10 + (c.toNat - 48)) 0

/-- Lines 211-219: the count the command parses — the last digit run of the
text after the command word, or `none` when there is none. -/
def parse_count (full_text : List Char) : Option ℕ :=
  ((digitRuns (tail_after_cmd full_text)).getLast?).map natOfDigits

/-- What `batch_recall_command` decides before touching the network: either a
user-visible rejection reply, or a `get_group_msg_history` fetch request
carrying the group id, the fetch count, the clamped recall count and the
optional target sender. -/
inductive BatchAction
  | reject (reply : String)
  | fetch (group_id : ℕ) (fetch_count : ℕ) (count : ℕ) (target_qq : Option String)
deriving DecidableEq, Repr

/-- Lines 198-234 of `batch_recall_command` up to the history fetch (for a
group-chat aiocqhttp event): extract the target from `At` segments, parse the
trailing count from the `Plain` text, reject when no number is found or the
count is not positive, clamp to `batch_max_count`, and request
`min(max_count * 3, 100)` history entries. -/
def batch_precheck (segs : List Seg) (group_id : ℕ) (max_count : ℕ) :
    BatchAction :=
  match parse_count (full_text_of segs) with
  | none => .reject "请在指令后填写需要撤回的数量，例如：批量撤回 5"
  | some count =>
    if count ≤ 0 then .reject "撤回数量必须为正整数。"
    else
      .fetch group_id (min (max_count * 3) 100)
        (if count > max_count then max_count else count) (find_target_qq segs)

/-! ## `_should_enable_recall` (lines 54-63) -/

/-- The configuration keys `_should_enable_recall` reads, with the defaults
the code supplies in `conf.get`. -/
structure RecallConf where
  enable_private_recall : Bool := true
  enable_group_recall : Bool := true
  group_whitelist : List String := []
deriving DecidableEq, Repr

/-- Lines 54-63: a falsy group id (`none` here) means a private message,
gated by `enable_private_recall`; otherwise a non-empty whitelist not
containing the group id disables recall, and the remaining cases are gated by
`enable_group_recall`. -/
def should_enable_recall (conf : RecallConf) (group_id : Option String) : Bool :=
  match group_id with
  | none => conf.enable_private_recall
  | some gid =>
    if ¬conf.group_whitelist.isEmpty ∧ gid ∉ conf.group_whitelist then false
    else conf.enable_group_recall

/-! ## Helper lemmas -/

instance : IsTotal HistoryEntry timeGe where
  total a b := by unfold timeGe; exact Nat.le_total _ _

instance : IsTrans HistoryEntry timeGe where
  trans a b c h1 h2 := by unfold timeGe at *; exact Nat.le_trans h2 h1

/-- The clamp `if count > max_count: count = max_count` computes the minimum. -/
theorem clamp_eq_min (count max_count : ℕ) :
    (if count > max_count then max_count else count) = min count max_count := by
  split_ifs <;> omega

/-- Length of the selection: the clamped count, capped by what the filter left. -/
theorem batch_select_length (history : List HistoryEntry) (target : Option String)
    (count max_count : ℕ) :
    (batch_select history target count max_count).length
      = min (min count max_count) (filterTarget history target).length := by
  unfold batch_select sortDesc
  rw [List.length_take, List.length_insertionSort, clamp_eq_min]

/-- The ids the deletion loop attempts are exactly the truthy `message_id`s of
the window, in order, whatever the delete calls return. -/
theorem batch_delete_attempted (l : List HistoryEntry) (delete_ok : ℕ → Bool) :
    (batch_delete l delete_ok).2 = l.filterMap (fun m => truthy_id m.message_id) := by
  induction l with
  | nil => rfl
  | cons m rest ih =>
    cases h : truthy_id m.message_id with
    | none => simp [batch_delete, h, List.filterMap_cons, ih]
    | some mid => simp [batch_delete, h, List.filterMap_cons, ih]

/-- The success tally counts exactly the attempted ids whose delete succeeded. -/
theorem batch_delete_success (l : List HistoryEntry) (delete_ok : ℕ → Bool) :
    (batch_delete l delete_ok).1
      = ((batch_delete l delete_ok).2.filter delete_ok).length := by
  induction l with
  | nil => rfl
  | cons m rest ih =>
    cases h : truthy_id m.message_id with
    | none => simp [batch_delete, h, ih]
    | some mid =>
      cases hok : delete_ok mid <;>
        simp [batch_delete, h, hok, List.filter_cons, ih]

/-- The success tally never exceeds the number of entries in the window. -/
theorem batch_delete_le (l : List HistoryEntry) (delete_ok : ℕ → Bool) :
    (batch_delete l delete_ok).1 ≤ l.length := by
  induction l with
  | nil => exact Nat.le_refl 0
  | cons m rest ih =>
    cases h : truthy_id m.message_id with
    | none =>
      simp only [batch_delete, h, List.length_cons]
      omega
    | some mid =>
      simp only [batch_delete, h, List.length_cons]
      split_ifs <;> omega

/-- The scheduler-registry invariant: completion only happens to created
tasks, and the registry holds exactly the created, not-yet-completed tasks. -/
def SchedInv (s : SchedState) : Prop :=
  s.completed ⊆ s.created ∧ ∀ t, t ∈ s.registry ↔ t ∈ s.created ∧ t ∉ s.completed

theorem schedInv_init : SchedInv SchedState.init := by
  refine ⟨Finset.empty_subset _, fun t => ?_⟩
  simp [SchedState.init]

theorem schedInv_step {s s' : SchedState} (hstep : SchedStep s s')
    (hinv : SchedInv s) : SchedInv s' := by
  obtain ⟨hsub, hreg⟩ := hinv
  cases hstep with
  | schedule t ht =>
    refine ⟨hsub.trans (Finset.subset_insert t s.created), fun x => ?_⟩
    have htc : t ∉ s.completed := fun hc => ht (hsub hc)
    rw [Finset.mem_insert, Finset.mem_insert, hreg x]
    by_cases hx : x = t
    · subst hx; tauto
    · tauto
  | complete t o ht hc =>
    refine ⟨Finset.insert_subset ht hsub, fun x => ?_⟩
    rw [Finset.mem_erase, hreg x, Finset.mem_insert]
    tauto

theorem schedInv_reachable {s : SchedState} (h : Reachable s) : SchedInv s := by
  have h' : Relation.ReflTransGen SchedStep SchedState.init s := h
  clear h
  induction h' with
  | refl => exact schedInv_init
  | tail _ hstep ih => exact schedInv_step hstep ih

/-! ## Claims -/

/-- C1.  Batch selection: for every fetched history list, optional target
sender, requested count and configured `max_count`, the code's selection
equals the spec's pipeline — clamp the count to at most `max_count`, filter
by the target sender when provided, stable-sort by timestamp descending, take
the first clamped-count entries — the result is sorted by timestamp
descending, and its length never exceeds
`min(requested_count, entries-after-filter)`. -/
theorem C1_batch_select_refines_spec (history : List HistoryEntry)
    (target : Option String) (count max_count : ℕ) :
    batch_select history target count max_count
        = select_spec history target count max_count ∧
      List.Sorted timeGe (batch_select history target count max_count) ∧
      (batch_select history target count max_count).length
        ≤ min count (filterTarget history target).length := by
  refine ⟨?_, ?_, ?_⟩
  · unfold batch_select select_spec sortDesc filterTarget
    rw [clamp_eq_min]
  · unfold batch_select sortDesc
    exact List.Pairwise.sublist (List.take_sublist _ _)
      (List.sorted_insertionSort timeGe _)
  · rw [batch_select_length]
    omega

/-- C2.  Registry invariant: in every reachable scheduler state, a task
handle is in `recall_tasks` iff its task was created and has not yet reached
a terminal outcome; every terminal outcome (success, benign failure, error,
cancellation) removes the handle, and registration is synchronous with task
creation, so no completion precedes registration. -/
theorem C2_registry_iff_not_completed (s : SchedState) (hs : Reachable s)
    (t : ℕ) : t ∈ s.registry ↔ t ∈ s.created ∧ t ∉ s.completed :=
  (schedInv_reachable hs).2 t

theorem C2_witness :
    5 ∈ (⟨insert 5 ∅, ∅, insert 5 ∅⟩ : SchedState).registry ↔
      5 ∈ (⟨insert 5 ∅, ∅, insert 5 ∅⟩ : SchedState).created ∧
        5 ∉ (⟨insert 5 ∅, ∅, insert 5 ∅⟩ : SchedState).completed :=
  C2_registry_iff_not_completed _
    (Relation.ReflTransGen.single
      (SchedStep.schedule SchedState.init 5 (by simp [SchedState.init]))) 5

/-- C3.  A send whose result carries a missing or zero `message_id` schedules
nothing: no recall task is created and the registry is unchanged. -/
theorem C3_falsy_message_id_noop (sr : SendResult) (registry : Finset ℕ)
    (new_task : ℕ)
    (h : extract_message_id sr = none ∨ extract_message_id sr = some 0) :
    schedule_after_send sr registry new_task = (registry, false) := by
  rcases h with h | h <;> simp [schedule_after_send, h]

theorem C3_witness :
    schedule_after_send SendResult.nondict ∅ 1 = (∅, false) ∧
      schedule_after_send (SendResult.dict (some 0)) ∅ 1 = (∅, false) :=
  ⟨C3_falsy_message_id_noop _ _ _ (Or.inl rfl),
    C3_falsy_message_id_noop _ _ _ (Or.inr rfl)⟩

/-- C4.  `_recall_msg` error policy for a real (non-zero) message id: a
delete failing with retcode 1200 is benign (info log, no error), any other
`ActionFailed` or any other exception is logged as an error, success is an
info log — and the function is total, so no exception escapes the task. -/
theorem C4_recall_error_policy (mid : ℕ) (hmid : mid ≠ 0) :
    recall_msg mid .ok = .deleted ∧
      recall_msg mid (.actionFailed (some 1200)) = .benignInfo ∧
      (∀ rc : Option ℤ, rc ≠ some 1200 →
        recall_msg mid (.actionFailed rc) = .errorLogged) ∧
      recall_msg mid .otherError = .errorLogged := by
  refine ⟨?_, ?_, ?_, ?_⟩ <;> simp [recall_msg, hmid]

theorem C4_witness :
    (42 : ℕ) ≠ 0 ∧
      recall_msg 42 (.actionFailed (some 1200)) = .benignInfo ∧
      recall_msg 42 (.actionFailed (some 99)) = .errorLogged ∧
      recall_msg 42 .otherError = .errorLogged :=
  ⟨by decide, (C4_recall_error_policy 42 (by decide)).2.1,
    (C4_recall_error_policy 42 (by decide)).2.2.1 (some 99) (by decide),
    (C4_recall_error_policy 42 (by decide)).2.2.2⟩

/-- C5.  Draining: `terminate` leaves the registry empty, emits a
cancellation event for every not-yet-done task, produces exactly one drain
event per outstanding task (N events for N tasks, including N = 0), and
running it again on the now-empty registry is a safe no-op. -/
theorem C5_terminate_drains (p : Plugin) :
    (terminate p).1.recall_tasks = [] ∧
      (∀ t ∈ p.recall_tasks, t.done = false →
        DrainEvent.cancelledEv t.id ∈ (terminate p).2) ∧
      (terminate p).2.length = p.recall_tasks.length ∧
      terminate (terminate p).1 = (⟨[]⟩, []) := by
  refine ⟨rfl, ?_, ?_, rfl⟩
  · intro t hmem hdone
    simp only [terminate, List.mem_map]
    exact ⟨t, hmem, by simp [hdone]⟩
  · simp [terminate]

theorem C5_witness :
    (terminate ⟨[⟨1, true⟩, ⟨2, false⟩]⟩).1.recall_tasks = [] ∧
      DrainEvent.cancelledEv 2 ∈ (terminate ⟨[⟨1, true⟩, ⟨2, false⟩]⟩).2 ∧
      terminate (terminate ⟨[⟨1, true⟩, ⟨2, false⟩]⟩).1 = (⟨[]⟩, []) :=
  ⟨(C5_terminate_drains _).1,
    (C5_terminate_drains _).2.1 ⟨2, false⟩ (by decide) rfl,
    (C5_terminate_drains _).2.2.2⟩

/-- C6.  Batch deletion tally: deletes are attempted independently per item
(the attempted ids are the window's truthy ids regardless of which deletes
fail), the reported success count equals the number of delete calls that
succeeded, and it never exceeds the number of selected entries. -/
theorem C6_batch_delete_tally (l : List HistoryEntry) (delete_ok : ℕ → Bool) :
    (batch_delete l delete_ok).2
        = l.filterMap (fun m => truthy_id m.message_id) ∧
      (batch_delete l delete_ok).1
        = ((batch_delete l delete_ok).2.filter delete_ok).length ∧
      (batch_delete l delete_ok).1 ≤ l.length :=
  ⟨batch_delete_attempted l delete_ok, batch_delete_success l delete_ok,
    batch_delete_le l delete_ok⟩

/-- C7.  Invalid batch-recall input: when the command text parses to no
count, or to a non-positive count, the handler answers with the rejection
reply and never reaches the history fetch (the decision is a `reject`, not a
`fetch`). -/
theorem C7_invalid_input_rejected (segs : List Seg) (gid mc : ℕ) :
    (parse_count (full_text_of segs) = none →
        batch_precheck segs gid mc
          = .reject "请在指令后填写需要撤回的数量，例如：批量撤回 5") ∧
      (parse_count (full_text_of segs) = some 0 →
        batch_precheck segs gid mc = .reject "撤回数量必须为正整数。") := by
  constructor <;> intro h <;> simp [batch_precheck, h]

theorem C7_witness :
    batch_precheck [Seg.plainSeg "批量撤回"] 1 20
        = .reject "请在指令后填写需要撤回的数量，例如：批量撤回 5" ∧
      batch_precheck [Seg.plainSeg "批量撤回 0"] 1 20
        = .reject "撤回数量必须为正整数。" :=
  ⟨(C7_invalid_input_rejected [Seg.plainSeg "批量撤回"] 1 20).1 (by decide),
    (C7_invalid_input_rejected [Seg.plainSeg "批量撤回 0"] 1 20).2 (by decide)⟩

/-- C8.  Allow-list gating: a private message is gated only by
`enable_private_recall`; with a non-empty whitelist a group not in it is
disabled; with an empty whitelist, and for whitelisted groups, the gate is
`enable_group_recall`. -/
theorem C8_allowlist_gating (conf : RecallConf) (gid : String) :
    should_enable_recall conf none = conf.enable_private_recall ∧
      (conf.group_whitelist ≠ [] → gid ∉ conf.group_whitelist →
        should_enable_recall conf (some gid) = false) ∧
      (conf.group_whitelist = [] →
        should_enable_recall conf (some gid) = conf.enable_group_recall) ∧
      (gid ∈ conf.group_whitelist →
        should_enable_recall conf (some gid) = conf.enable_group_recall) := by
  refine ⟨rfl, ?_, ?_, ?_⟩
  · intro h1 h2
    simp [should_enable_recall, h1, h2, List.isEmpty_iff]
  · intro h1
    simp [should_enable_recall, h1]
  · intro h1
    simp [should_enable_recall, h1]

theorem C8_witness :
    should_enable_recall ⟨true, true, ["7"]⟩ (some "8") = false ∧
      should_enable_recall ⟨true, true, []⟩ (some "8") = true ∧
      should_enable_recall ⟨true, true, ["7"]⟩ (some "7") = true :=
  ⟨(C8_allowlist_gating ⟨true, true, ["7"]⟩ "8").2.1 (by decide) (by decide),
    (C8_allowlist_gating ⟨true, true, []⟩ "8").2.2.1 rfl,
    (C8_allowlist_gating ⟨true, true, ["7"]⟩ "7").2.2.2 (by decide)⟩

/-- C9.  History over-fetch bound: whenever the precheck decides to fetch,
the number of history entries requested is `min(max_count * 3, 100)`. -/
theorem C9_fetch_bound (segs : List Seg) (gid mc g fc c : ℕ)
    (t : Option String) (h : batch_precheck segs gid mc = .fetch g fc c t) :
    fc = min (mc * 3) 100 := by
  unfold batch_precheck at h
  cases hp : parse_count (full_text_of segs) with
  | none => rw [hp] at h; simp at h
  | some n =>
    rw [hp] at h
    cases n with
    | zero => simp at h
    | succ k =>
      injection h with h1 h2 h3 h4
      exact h2.symm

theorem C9_witness :
    batch_precheck [Seg.plainSeg "批量撤回 5"] 1 20
        = .fetch 1 60 5 none ∧
      (60 : ℕ) = min (20 * 3) 100 :=
  ⟨by decide, C9_fetch_bound [Seg.plainSeg "批量撤回 5"] 1 20 1 60 5 none (by decide)⟩

/-- C10.  Entries of the selected window whose `message_id` is missing or
zero trigger no delete call and never increment the tally (the attempted ids
are exactly the window's truthy ids, and the tally is bounded by their
number), yet they still occupy a slot: the window's length is
`min(clamped count, entries-after-filter)` independent of the ids, and the
window is never refilled. -/
theorem C10_falsy_ids_occupy_slots (history : List HistoryEntry)
    (target : Option String) (count mc : ℕ) (delete_ok : ℕ → Bool) :
    (batch_delete (batch_select history target count mc) delete_ok).2
        = (batch_select history target count mc).filterMap
            (fun m => truthy_id m.message_id) ∧
      (batch_delete (batch_select history target count mc) delete_ok).1
        ≤ ((batch_select history target count mc).filterMap
            (fun m => truthy_id m.message_id)).length ∧
      (batch_select history target count mc).length
        = min (min count mc) (filterTarget history target).length := by
  refine ⟨batch_delete_attempted _ _, ?_, batch_select_length _ _ _ _⟩
  rw [batch_delete_success, batch_delete_attempted]
  exact List.length_filter_le _ _

end BatchRecallPlugin
